import Mathlib

/-!
Shallow embedding of `src/Exercise_1/file_sync.c`, a one-way directory
synchronizer.  Filenames and file contents are byte lists; a regular file is
its content together with its `st_mtime` timestamp (`time_t` seconds, modelled
as `Int`).  The destination directory is a map from filename to optional file.
External subprocesses (`diff -q`, `cp`) are modelled by their observable
contract on the files involved; their raw exit statuses are modelled
separately where a claim is about the program's (non-)handling of them.
-/

namespace FileSync

/-- Bytes of a filename or of a file's content (C strings / file data). -/
abbrev Bytes := List Nat

/-- A regular file as the program observes it: byte content plus the
modification timestamp reported by `stat` (`st_mtime`, seconds). -/
structure SFile where
  content : Bytes
  mtime : Int
  deriving DecidableEq

/-- The four terminal per-file decisions of the synchronization engine. -/
inductive SyncDecision where
  | copyNew
  | copyUpdate
  | skipIdentical
  | skipDestNewer
  deriving DecidableEq

/-- Sign of C `strcmp` on NUL-free byte strings: `compare` (file_sync.c lines
19–21) passes `strcmp` of the two names to `qsort`, which only inspects the
sign, so the sign is what we model (0 equal, -1 first smaller, 1 first
larger; a proper prefix compares smaller, as the terminating NUL does in C). -/
def strcmp : Bytes → Bytes → Int
  | [], [] => 0
  | [], _ :: _ => -1
  | _ :: _, [] => 1
  | a :: as, b :: bs => if a < b then -1 else if b < a then 1 else strcmp as bs

/-- The ordering `qsort(files, count, sizeof(char *), compare)` sorts by:
name `a` comes no later than `b` when `strcmp a b <= 0`. -/
def lexLe (a b : Bytes) : Prop := strcmp a b ≤ 0

instance : DecidableRel lexLe := fun a b =>
  inferInstanceAs (Decidable (strcmp a b ≤ 0))

/-- Model of the `qsort` call (file_sync.c lines 141–142): the collected
filenames sorted by the `compare` (byte-wise `strcmp`) ordering. -/
def sortFiles (l : List Bytes) : List Bytes := List.insertionSort lexLe l

/-- Model of `difftime` on integral `time_t` values: the difference. -/
def difftime (a b : Int) : Int := a - b

/-- `source_is_newer` (file_sync.c lines 36–41): true iff
`difftime(src.st_mtime, dst.st_mtime) > 0`. -/
def source_is_newer (src dst : SFile) : Bool :=
  decide (0 < difftime src.mtime dst.mtime)

/-- `files_are_different` (file_sync.c lines 44–57) returns the exit status of
`diff -q src dst`: 0 when the contents are byte-identical, 1 when they differ
(status 2, diff failing to read a file, is modelled by `diffStatusBranch`
below, since this definition assumes both files are readable). -/
def files_are_different (src dst : SFile) : Nat :=
  if src.content = dst.content then 0 else 1

/-- Decision logic of the per-file loop body (file_sync.c lines 150–163):
no destination → copy-new; `!files_are_different` → skip-identical;
else `source_is_newer` decides copy-update versus skip-destination-newer. -/
def syncStep (srcF : SFile) (dstF : Option SFile) : SyncDecision :=
  match dstF with
  | none => SyncDecision.copyNew
  | some d =>
    if files_are_different srcF d = 0 then SyncDecision.skipIdentical
    else if source_is_newer srcF d then SyncDecision.copyUpdate
    else SyncDecision.skipDestNewer

/-- Whether a decision executes `copy_file` in the loop body. -/
def transfers : SyncDecision → Bool
  | SyncDecision.copyNew => true
  | SyncDecision.copyUpdate => true
  | SyncDecision.skipIdentical => false
  | SyncDecision.skipDestNewer => false

/-- The four-way decision algorithm exactly as the specification words it
(spec section 4.6), used to check the code's decision logic against it. -/
def specDecision (srcF : SFile) (dstF : Option SFile) : SyncDecision :=
  match dstF with
  | none => SyncDecision.copyNew
  | some d =>
    if srcF.content = d.content then SyncDecision.skipIdentical
    else if d.mtime < srcF.mtime then SyncDecision.copyUpdate
    else SyncDecision.skipDestNewer

/-- The destination directory: filename to optional regular file. -/
abbrev DstMap := Bytes → Option SFile

/-- Writing one file into the destination directory (the effect of
`cp src dst` on the destination map; the copy gets the copy-time stamp). -/
def updateMap (m : DstMap) (n : Bytes) (f : SFile) : DstMap :=
  fun k => if k = n then some f else m k

/-- The processing loop of `main` (file_sync.c lines 145–165): for each
candidate `(name, source file)` in order, decide via `syncStep` against the
current destination state and, when the decision transfers, overwrite the
destination entry with the source content stamped with copy time `t`. Returns
the final destination state and the per-file decision log. -/
def runSync (t : Int) : List (Bytes × SFile) → DstMap → DstMap × List (Bytes × SyncDecision)
  | [], dst => (dst, [])
  | (n, f) :: rest, dst =>
    let d := syncStep f (dst n)
    let dst1 := if transfers d then updateMap dst n ⟨f.content, t⟩ else dst
    let r := runSync t rest dst1
    (r.1, (n, d) :: r.2)

/-- The filesystem type of a directory entry itself, as `lstat` or `d_type`
would report it. -/
inductive FType where
  | regular
  | directory
  | symlink
  | socket
  | device
  deriving DecidableEq

/-- One `readdir` result: the entry's name, the entry's own type, and — when
the entry is a symlink — the type of its fully resolved target (`none` for a
broken link). -/
structure DirEntry where
  name : Bytes
  ftype : FType
  linkTarget : Option FType
  deriving DecidableEq

/-- `is_regular_file` (file_sync.c lines 30–33): `stat(path)` succeeds and
`S_ISREG(st.st_mode)` holds.  `stat` follows symlinks, so on a symlink entry
it reports the resolved target's type (and fails on a broken link): a
symlink whose target is a regular file passes this test. -/
def is_regular_file (e : DirEntry) : Bool :=
  match e.ftype with
  | FType.regular => true
  | FType.symlink =>
    match e.linkTarget with
    | some FType.regular => true
    | _ => false
  | _ => false

/-- The byte string "." (the self pseudo-entry). -/
def dotName : Bytes := [46]

/-- The byte string ".." (the parent pseudo-entry). -/
def dotdotName : Bytes := [46, 46]

/-- `MAX_FILES` (file_sync.c line 14). -/
def MAX_FILES : Nat := 100

/-- The collection loop of `main` (file_sync.c lines 126–139) over the
`readdir` stream: skip "." and "..", skip non-regular entries, append the
name and stop as soon as the running count reaches `MAX_FILES`
(`files[count++] = ...; if (count >= MAX_FILES) break;`). -/
def collectFiles : List DirEntry → Nat → List Bytes
  | [], _ => []
  | e :: rest, count =>
    if e.name = dotName ∨ e.name = dotdotName then collectFiles rest count
    else if is_regular_file e then
      if MAX_FILES ≤ count + 1 then [e.name]
      else e.name :: collectFiles rest (count + 1)
    else collectFiles rest count

/-- An entry the collection loop keeps: not a pseudo-entry, and passing the
`stat`-based `is_regular_file` test. -/
def goodEntry (e : DirEntry) : Bool :=
  (!decide (e.name = dotName ∨ e.name = dotdotName)) && is_regular_file e

/-- An entry the specification says to keep: not a pseudo-entry, and of
filesystem type regular file itself — symlinks excluded even when they point
to a regular file. -/
def specKeeps (e : DirEntry) : Bool :=
  (!decide (e.name = dotName ∨ e.name = dotdotName)) && decide (e.ftype = FType.regular)

/-- A symlink entry named "s" (byte 115) whose resolved target is a regular
file. -/
def linkEntry : DirEntry := ⟨[115], FType.symlink, some FType.regular⟩

/-- The set of directories existing on the filesystem, as the path strings
`mkdir` was asked to create (paths modelled as component lists). -/
abbrev DirFS := List (List String)

/-- One `mkdir(path, 0755)` call with its result ignored, as `mkdir_p` does:
creating an existing directory fails with EEXIST, which the code ignores, so
the filesystem is unchanged; otherwise the directory is created. -/
def mkdirOnce (fs : DirFS) (p : List String) : DirFS :=
  if p ∈ fs then fs else p :: fs

/-- The prefixes `mkdir_p` (file_sync.c lines 72–86) creates, in order: for a
path of n components it calls `mkdir` on the first 1, 2, ..., n components
(each slash-terminated prefix, then the whole path). -/
def mkdirTargets (p : List String) : List (List String) :=
  (List.range p.length).map (fun i => p.take (i + 1))

/-- `mkdir_p`: fold the ignored-result `mkdir` over every ancestor, shortest
first, then the full path. -/
def mkdir_p (fs : DirFS) (p : List String) : DirFS :=
  (mkdirTargets p).foldl mkdirOnce fs

/-- The I/O outcomes that determine the control flow of `main`
(file_sync.c lines 88–123 and 166–169): the argument count, whether
`realpath` resolves each root, whether `mkdir_p` would actually manage to
create the destination, and whether `getcwd` and `opendir` succeed. -/
structure MainEnv where
  argc : Nat
  srcResolves : Bool
  dstResolves : Bool
  mkdirSucceeds : Bool
  getcwdOk : Bool
  opendirOk : Bool
  deriving DecidableEq

/-- The exit code of `main` as the code computes it: 1 on wrong arity, on
`realpath(argv[1])` failure, on `getcwd` failure and on `opendir` failure;
otherwise 0.  `mkdir_p` is `void` and its errors are ignored, so neither
`dstResolves` nor `mkdirSucceeds` influences the result. -/
def mainExitCode (e : MainEnv) : Nat :=
  if e.argc ≠ 3 then 1
  else if e.srcResolves = false then 1
  else if e.getcwdOk = false then 1
  else if e.opendirOk = false then 1
  else 0

/-- The line `copy_file` prints (file_sync.c lines 60–69): it forks `cp`,
waits with `wait(NULL)` without reading the exit status, and prints the
"Copied" line unconditionally — the definition does not inspect
`cpExitStatus` because the code never does. -/
def copy_file_event (src dst : String) (cpExitStatus : Nat) : String :=
  "Copied: " ++ src ++ " -> " ++ dst

/-- The destination-exists branch of the loop body as a function of the raw
`diff -q` exit status (`files_are_different` returns `WEXITSTATUS` verbatim,
0 same, 1 different, 2 read failure) and of `source_is_newer`: the code only
tests the status against 0. -/
def diffStatusBranch (diffExitStatus : Nat) (srcNewer : Bool) : SyncDecision :=
  if diffExitStatus = 0 then SyncDecision.skipIdentical
  else if srcNewer then SyncDecision.copyUpdate
  else SyncDecision.skipDestNewer

/-- What a first-run decision becomes on an immediate second run over an
unchanged source. -/
def secondRun (d : SyncDecision) : SyncDecision :=
  if d = SyncDecision.skipDestNewer then SyncDecision.skipDestNewer
  else SyncDecision.skipIdentical

/-- The bytes of "a.txt". -/
def aTxt : Bytes := [97, 46, 116, 120, 116]

/-- The bytes of "b.txt". -/
def bTxt : Bytes := [98, 46, 116, 120, 116]

/-- The bytes of "c.txt". -/
def cTxt : Bytes := [99, 46, 116, 120, 116]

/-- A one-candidate source directory: file "a" (byte 97) with content byte 1
and modification time 0. -/
def exSource : List (Bytes × SFile) := [([97], ⟨[1], 0⟩)]

/-- A destination directory already holding a different, newer file "a":
content byte 2, modification time 5. -/
def exDest : DstMap := fun k => if k = [97] then some ⟨[2], 5⟩ else none

/-- A concrete two-component destination path used to instantiate the
directory-creation theorems. -/
def exPath : List String := ["tmp", "dest"]

/-! ### Helper lemmas -/

theorem strcmp_swap : ∀ a b : Bytes, strcmp b a = -strcmp a b
  | [], [] => by simp [strcmp]
  | [], _ :: _ => by simp [strcmp]
  | _ :: _, [] => by simp [strcmp]
  | a :: as, b :: bs => by
    simp only [strcmp]
    rcases Nat.lt_trichotomy a b with h | h | h
    · have h2 : ¬ b < a := by omega
      simp [h, h2]
    · subst h
      simp [Nat.lt_irrefl, strcmp_swap as bs]
    · have h2 : ¬ a < b := by omega
      simp [h, h2]

theorem strcmp_cons_le (a b : Nat) (as bs : Bytes) :
    strcmp (a :: as) (b :: bs) ≤ 0 ↔ (a < b ∨ (a = b ∧ strcmp as bs ≤ 0)) := by
  simp only [strcmp]
  rcases Nat.lt_trichotomy a b with h | h | h
  · have h2 : ¬ b < a := by omega
    simp [h, h2]
  · subst h
    simp [Nat.lt_irrefl]
  · have h2 : ¬ a < b := by omega
    have h3 : a ≠ b := by omega
    simp [h, h2, h3]

theorem strcmp_le_trans : ∀ a b c : Bytes, strcmp a b ≤ 0 → strcmp b c ≤ 0 → strcmp a c ≤ 0
  | [], _, c, _, _ => by cases c <;> simp [strcmp]
  | _ :: _, [], _, h1, _ => by simp [strcmp] at h1
  | _ :: _, _ :: _, [], _, h2 => by simp [strcmp] at h2
  | a :: as, b :: bs, c :: cs, h1, h2 => by
    rw [strcmp_cons_le] at h1 h2 ⊢
    rcases h1 with h1 | ⟨e1, r1⟩
    · rcases h2 with h2 | ⟨e2, r2⟩
      · exact Or.inl (by omega)
      · exact Or.inl (by omega)
    · rcases h2 with h2 | ⟨e2, r2⟩
      · exact Or.inl (by omega)
      · exact Or.inr ⟨by omega, strcmp_le_trans as bs cs r1 r2⟩

instance : IsTotal Bytes lexLe where
  total a b := by
    unfold lexLe
    rcases le_or_lt (strcmp a b) 0 with h | h
    · exact Or.inl h
    · refine Or.inr ?_
      rw [strcmp_swap]
      omega

instance : IsTrans Bytes lexLe where
  trans a b c h1 h2 := strcmp_le_trans a b c h1 h2

theorem runSync_names (t : Int) :
    ∀ (l : List (Bytes × SFile)) (dst : DstMap),
      (runSync t l dst).2.map Prod.fst = l.map Prod.fst
  | [], _ => rfl
  | (n, f) :: rest, dst => by
    simp only [runSync, List.map]
    rw [runSync_names t rest]

theorem stepMap_apply (dst : DstMap) (m k : Bytes) (x : SFile) (c : Bool) :
    (if c then updateMap dst m x else dst) k
      = (if c then (if k = m then some x else dst k) else dst k) := by
  cases c <;> simp [updateMap]

theorem runSync_frame (t : Int) :
    ∀ (l : List (Bytes × SFile)) (dst : DstMap) (n : Bytes),
      n ∉ l.map Prod.fst → (runSync t l dst).1 n = dst n
  | [], _, _, _ => rfl
  | (m, f) :: rest, dst, n, h => by
    rw [List.map_cons, List.mem_cons] at h
    push_neg at h
    obtain ⟨h1, h2⟩ := h
    simp only [runSync]
    rw [runSync_frame t rest _ n h2, stepMap_apply]
    simp [h1]

theorem transfers_secondRun (d : SyncDecision) : transfers (secondRun d) = false := by
  unfold secondRun
  split <;> rfl

theorem syncStep_after (f : SFile) (o : Option SFile) (t : Int) :
    syncStep f (if transfers (syncStep f o) then some ⟨f.content, t⟩ else o)
      = secondRun (syncStep f o) := by
  cases o with
  | none => simp [syncStep, transfers, files_are_different, secondRun]
  | some d =>
    by_cases hc : f.content = d.content
    · simp [syncStep, files_are_different, hc, transfers, secondRun]
    · by_cases hm : source_is_newer f d = true
      · simp [syncStep, files_are_different, hc, hm, transfers, secondRun]
      · simp [syncStep, files_are_different, hc, hm, transfers, secondRun]

theorem collectFiles_eq_take :
    ∀ (entries : List DirEntry) (c : Nat), c < MAX_FILES →
      collectFiles entries c = ((entries.filter goodEntry).map DirEntry.name).take (MAX_FILES - c)
  | [], c, _ => by simp [collectFiles]
  | e :: rest, c, hc => by
    by_cases hp : e.name = dotName ∨ e.name = dotdotName
    · have hg : goodEntry e = false := by simp [goodEntry, hp]
      simp only [collectFiles, List.filter_cons, hg]
      rw [if_pos hp]
      simp only [Bool.false_eq_true, if_false]
      exact collectFiles_eq_take rest c hc
    · by_cases hr : is_regular_file e = true
      · have hg : goodEntry e = true := by simp [goodEntry, hp, hr]
        simp only [collectFiles, List.filter_cons, hg, if_true]
        rw [if_neg hp, if_pos hr]
        by_cases hlast : MAX_FILES ≤ c + 1
        · have hceq : MAX_FILES - c = 1 := by
            unfold MAX_FILES at hc hlast ⊢
            omega
          rw [if_pos hlast, hceq]
          simp
        · rw [if_neg hlast, collectFiles_eq_take rest (c + 1) (by omega)]
          have hceq : MAX_FILES - c = (MAX_FILES - (c + 1)) + 1 := by omega
          rw [hceq]
          simp
      · have hg : goodEntry e = false := by simp [goodEntry, hp, hr]
        simp only [collectFiles, List.filter_cons, hg]
        rw [if_neg hp, if_neg hr]
        simp only [Bool.false_eq_true, if_false]
        exact collectFiles_eq_take rest c hc

theorem mem_mkdirOnce_self (fs : DirFS) (p : List String) : p ∈ mkdirOnce fs p := by
  unfold mkdirOnce
  split
  · assumption
  · exact List.mem_cons_self p fs

theorem mem_mkdirOnce_of_mem {fs : DirFS} {q : List String} (h : q ∈ fs) (p : List String) :
    q ∈ mkdirOnce fs p := by
  unfold mkdirOnce
  split
  · exact h
  · exact List.mem_cons_of_mem p h

theorem mkdirOnce_of_mem {fs : DirFS} {p : List String} (h : p ∈ fs) : mkdirOnce fs p = fs :=
  if_pos h

theorem foldl_mkdirOnce_mem_of_mem :
    ∀ (l : List (List String)) (fs : DirFS) (q : List String),
      q ∈ fs → q ∈ l.foldl mkdirOnce fs
  | [], _, _, h => h
  | p :: rest, fs, q, h =>
    foldl_mkdirOnce_mem_of_mem rest _ q (mem_mkdirOnce_of_mem h p)

theorem foldl_mkdirOnce_mem_all :
    ∀ (l : List (List String)) (fs : DirFS) (q : List String),
      q ∈ l → q ∈ l.foldl mkdirOnce fs
  | [], _, q, h => absurd h (List.not_mem_nil q)
  | p :: rest, fs, q, h => by
    rcases List.mem_cons.mp h with h1 | h2
    · subst h1
      exact foldl_mkdirOnce_mem_of_mem rest _ q (mem_mkdirOnce_self fs q)
    · exact foldl_mkdirOnce_mem_all rest _ q h2

theorem foldl_mkdirOnce_noop :
    ∀ (l : List (List String)) (fs : DirFS), (∀ q ∈ l, q ∈ fs) → l.foldl mkdirOnce fs = fs
  | [], _, _ => rfl
  | p :: rest, fs, h => by
    rw [List.foldl_cons, mkdirOnce_of_mem (h p (List.mem_cons_self p rest))]
    exact foldl_mkdirOnce_noop rest fs (fun q hq => h q (List.mem_cons_of_mem p hq))

/-! ### Claim theorems -/

/-- C1: for every candidate file the loop body's decision follows exactly the
four-way algorithm — no destination gives Copy-New, byte-equal contents give
Skip-Identical, a strictly newer source gives Copy-Update, and otherwise
(including equal timestamps) Skip-DestinationNewer — and a transfer is
executed exactly for the two Copy decisions. -/
theorem decision_follows_four_way :
    (∀ (srcF : SFile) (dstF : Option SFile), syncStep srcF dstF = specDecision srcF dstF)
    ∧ (∀ d : SyncDecision,
        transfers d = decide (d = SyncDecision.copyNew ∨ d = SyncDecision.copyUpdate)) := by
  constructor
  · intro srcF dstF
    cases dstF with
    | none => rfl
    | some d =>
      by_cases hc : srcF.content = d.content
      · simp [syncStep, specDecision, files_are_different, hc]
      · by_cases hm : d.mtime < srcF.mtime
        · have hm2 : 0 < srcF.mtime - d.mtime := by omega
          simp [syncStep, specDecision, files_are_different, source_is_newer, difftime,
            hc, hm, hm2]
        · have hm2 : ¬ 0 < srcF.mtime - d.mtime := by omega
          simp [syncStep, specDecision, files_are_different, source_is_newer, difftime,
            hc, hm, hm2]
  · intro d
    cases d <;> rfl

/-- C2: the engine processes candidates in lexicographic (byte-wise) order:
the sorted list is ordered by the strcmp ordering and is a permutation of the
collected names; sorting the names b.txt, a.txt, c.txt yields
a.txt, b.txt, c.txt; and the processing loop emits its per-file decisions in
exactly the order of the sorted list it is given. -/
theorem processing_order_lexicographic :
    (∀ l : List Bytes, List.Sorted lexLe (sortFiles l) ∧ (sortFiles l).Perm l)
    ∧ sortFiles [bTxt, aTxt, cTxt] = [aTxt, bTxt, cTxt]
    ∧ (∀ (t : Int) (l : List (Bytes × SFile)) (dst : DstMap),
        (runSync t l dst).2.map Prod.fst = l.map Prod.fst) := by
  refine ⟨fun l => ⟨?_, ?_⟩, ?_, fun t l dst => runSync_names t l dst⟩
  · exact List.sorted_insertionSort lexLe l
  · exact List.perm_insertionSort lexLe l
  · decide

/-- C3: the recency comparator returns true exactly when the source file's
modification timestamp is strictly later than the destination file's, and in
particular returns false on equal timestamps. -/
theorem recency_comparator_strict (a b : SFile) :
    (source_is_newer a b = true ↔ b.mtime < a.mtime)
    ∧ (a.mtime = b.mtime → source_is_newer a b = false) := by
  constructor
  · unfold source_is_newer difftime
    constructor
    · intro h
      have := of_decide_eq_true h
      omega
    · intro h
      exact decide_eq_true (by omega)
  · intro h
    unfold source_is_newer difftime
    exact decide_eq_false (by omega)

/-- Witness for C3 at concrete files: timestamps 7 versus 3 give true, and
equal timestamps 5 and 5 give false. -/
theorem recency_comparator_strict_witness :
    (source_is_newer ⟨[], 7⟩ ⟨[], 3⟩ = true ↔ (3 : Int) < 7)
    ∧ source_is_newer ⟨[], 5⟩ ⟨[], 5⟩ = false :=
  ⟨(recency_comparator_strict ⟨[], 7⟩ ⟨[], 3⟩).1,
   (recency_comparator_strict ⟨[], 5⟩ ⟨[], 5⟩).2 rfl⟩

/-- C4 counterexample: with source file "a" (content 1, mtime 0) and a
destination already holding a different, newer "a" (content 2, mtime 5), the
first run decides Skip-DestinationNewer and changes nothing, so the second
run again decides Skip-DestinationNewer — not Skip-Identical — even though
the first run completed without failures and the source never changed. -/
theorem second_run_all_identical_counterexample :
    (runSync 1 exSource (runSync 0 exSource exDest).1).2
        = [([97], SyncDecision.skipDestNewer)]
    ∧ SyncDecision.skipDestNewer ≠ SyncDecision.skipIdentical := by
  constructor
  · decide
  · decide

/-- C4 amended: running the engine twice in succession with no source changes
(and distinct candidate names, as a directory listing guarantees) yields, on
the second run, Skip-Identical for every candidate whose first-run decision
was Copy-New, Copy-Update or Skip-Identical; a candidate decided
Skip-DestinationNewer on the first run is decided Skip-DestinationNewer
again. -/
theorem second_run_decisions (t1 t2 : Int) :
    ∀ (l : List (Bytes × SFile)) (dst : DstMap), (l.map Prod.fst).Nodup →
      (runSync t2 l (runSync t1 l dst).1).2
        = (runSync t1 l dst).2.map (fun p => (p.1, secondRun p.2))
  | [], _, _ => rfl
  | (n, f) :: rest, dst, h => by
    rw [List.map_cons, List.nodup_cons] at h
    obtain ⟨hn, hrest⟩ := h
    simp only [runSync, List.map_cons]
    rw [runSync_frame t1 rest _ n hn, stepMap_apply]
    have hin : (if n = n then some (⟨f.content, t1⟩ : SFile) else dst n) = some ⟨f.content, t1⟩ := by
      simp
    rw [hin, syncStep_after, transfers_secondRun]
    simp only [Bool.false_eq_true, if_false]
    rw [second_run_decisions t1 t2 rest _ hrest]

/-- Witness for C4 amended at a concrete input: one candidate "a" whose
first-run decision is Skip-DestinationNewer, names trivially distinct. -/
theorem second_run_decisions_witness :
    (exSource.map Prod.fst).Nodup
    ∧ (runSync 1 exSource (runSync 0 exSource exDest).1).2
        = (runSync 0 exSource exDest).2.map (fun p => (p.1, secondRun p.2)) :=
  ⟨by decide, second_run_decisions 0 1 exSource exDest (by decide)⟩

/-- C10: the run writes only destination entries named by a candidate file:
any destination name outside the candidate set maps to exactly the file it
held before the run (neither modified nor deleted); the source side is an
immutable input of the loop, which builds paths only by joining candidate
names onto the two roots. -/
theorem run_preserves_noncandidates (t : Int) (l : List (Bytes × SFile)) (dst : DstMap)
    (n : Bytes) (h : n ∉ l.map Prod.fst) :
    (runSync t l dst).1 n = dst n :=
  runSync_frame t l dst n h

/-- Witness for C10: the name "b" (byte 98) is not a candidate of the
one-file source, and its destination entry is untouched by the run. -/
theorem run_preserves_noncandidates_witness :
    ([98] ∉ exSource.map Prod.fst)
    ∧ (runSync 0 exSource exDest).1 [98] = exDest [98] :=
  ⟨by decide, run_preserves_noncandidates 0 exSource exDest [98] (by decide)⟩

/-- C6 counterexample: with correct arity, a resolvable source and a working
getcwd and opendir, but a destination that neither resolves nor can be
created, the program exits 0 — not 1 as the claim requires — because
`mkdir_p` is void and its failure is never checked. -/
theorem exit_code_counterexample :
    mainExitCode ⟨3, true, false, false, true, true⟩ = 0
    ∧ ¬ (mainExitCode ⟨3, true, false, false, true, true⟩ = 1
          ↔ ((3 : Nat) ≠ 3 ∨ (true : Bool) = false
              ∨ ((false : Bool) = false ∧ (false : Bool) = false)
              ∨ (true : Bool) = false)) := by
  constructor
  · decide
  · decide

/-- C6 amended: the exit code is always 0 or 1, and it is 1 exactly when the
argument count is wrong, the source directory does not resolve, getcwd fails,
or the source directory cannot be opened for reading; whether the destination
resolves or can be created has no effect on the exit code. -/
theorem exit_code_amended (e : MainEnv) :
    (mainExitCode e = 0 ∨ mainExitCode e = 1)
    ∧ (mainExitCode e = 1
        ↔ (e.argc ≠ 3 ∨ e.srcResolves = false ∨ e.getcwdOk = false ∨ e.opendirOk = false))
    ∧ mainExitCode e
        = mainExitCode ⟨e.argc, e.srcResolves, true, true, e.getcwdOk, e.opendirOk⟩ := by
  obtain ⟨argc, sr, dr, mk, gc, od⟩ := e
  by_cases ha : argc ≠ 3
  · simp [mainExitCode, ha]
  · cases sr <;> cases gc <;> cases od <;> simp [mainExitCode, ha]

/-- C7 counterexample: a symlink entry whose target is a regular file is
collected by the code — `is_regular_file` uses `stat`, which follows
symlinks — whereas the claim requires every entry whose own type is not
regular file to be skipped, symlinks to regular files included: on the
one-entry directory holding that symlink the code returns its name while the
claim's filter returns nothing. -/
theorem lister_skips_symlinks_counterexample :
    collectFiles [linkEntry] 0 = [[115]]
    ∧ (([linkEntry].filter specKeeps).map DirEntry.name) = []
    ∧ ([[115]] : List Bytes) ≠ [] := by
  refine ⟨by decide, by decide, by decide⟩

/-- C7 amended: the lister keeps, in stream order, exactly the names of the
entries that are neither the self nor the parent pseudo-entry and for which
`stat` on the joined path reports a regular file — so directories, sockets,
devices, broken symlinks and symlinks to non-regular targets are skipped,
but a symlink resolving to a regular file is collected — truncated to the
first MAX_FILES (100) of them, so with more than 100 such entries the
candidate set is silently cut short and the result never exceeds 100
names. -/
theorem lister_filters_and_truncates (entries : List DirEntry) :
    collectFiles entries 0 = ((entries.filter goodEntry).map DirEntry.name).take MAX_FILES
    ∧ (collectFiles entries 0).length ≤ MAX_FILES
    ∧ (∀ e : DirEntry, is_regular_file e = true
        ↔ (e.ftype = FType.regular
            ∨ (e.ftype = FType.symlink ∧ e.linkTarget = some FType.regular))) := by
  have h := collectFiles_eq_take entries 0 (by decide)
  rw [Nat.sub_zero] at h
  refine ⟨h, ?_, ?_⟩
  · rw [h, List.length_take]
    omega
  · intro e
    obtain ⟨n, t, lt⟩ := e
    cases t <;> (cases lt with
      | none => simp [is_regular_file]
      | some t2 => cases t2 <;> simp [is_regular_file])

/-- C8: destination directory creation is idempotent: running `mkdir_p` a
second time on the same path changes nothing, a single `mkdir` on an
already-existing directory is a no-op (its EEXIST is ignored, never
surfaced), and the requested directory does exist after `mkdir_p`. -/
theorem mkdir_p_idempotent (fs : DirFS) (p : List String) :
    mkdir_p (mkdir_p fs p) p = mkdir_p fs p
    ∧ (∀ (fs2 : DirFS) (d : List String), d ∈ fs2 → mkdirOnce fs2 d = fs2)
    ∧ (p ≠ [] → p ∈ mkdir_p fs p) := by
  refine ⟨?_, fun fs2 d h => mkdirOnce_of_mem h, ?_⟩
  · unfold mkdir_p
    apply foldl_mkdirOnce_noop
    intro q hq
    exact foldl_mkdirOnce_mem_all _ fs q hq
  · intro hp
    unfold mkdir_p
    apply foldl_mkdirOnce_mem_all
    unfold mkdirTargets
    have hpos : 0 < p.length := List.length_pos.mpr hp
    refine List.mem_map.mpr ⟨p.length - 1, List.mem_range.mpr (by omega), ?_⟩
    have heq : p.length - 1 + 1 = p.length := by omega
    rw [heq, List.take_length]

/-- Witness for C8 on the concrete path tmp/dest and the empty filesystem:
idempotence, a no-op second mkdir, and existence after creation. -/
theorem mkdir_p_idempotent_witness :
    mkdir_p (mkdir_p [] exPath) exPath = mkdir_p [] exPath
    ∧ mkdirOnce [exPath] exPath = [exPath]
    ∧ exPath ∈ mkdir_p [] exPath :=
  ⟨(mkdir_p_idempotent [] exPath).1,
   (mkdir_p_idempotent [] exPath).2.1 [exPath] exPath (List.mem_cons_self exPath []),
   (mkdir_p_idempotent [] exPath).2.2 (by simp [exPath])⟩

/-- C9: the loop does keep processing after a failed comparison or copy (it
has no abort path), but the code does not surface either failure:
`copy_file` prints the same "Copied" line whatever exit status `cp` died
with, and the loop classifies a `diff` read-failure status (2) exactly like
a genuine byte difference (1), so a ReadError silently becomes "files
differ" and a TransferError silently becomes "success". -/
theorem failure_not_surfaced :
    (∀ (s d : String) (st : Nat), copy_file_event s d st = copy_file_event s d 0)
    ∧ (∀ b : Bool, diffStatusBranch 2 b = diffStatusBranch 1 b) := by
  constructor
  · intro s d st
    rfl
  · intro b
    rfl

end FileSync
